import Mathlib

/-!
# Verification of the DataTable pipeline and query hooks

A shallow embedding of the core logic of the dashboard repository:

* `DataTable.tsx` (`src/unnamed/part_003`): the generic sortable/searchable
  table — `handleSort` (tri-state sort cycle) and `processedData`
  (filter + sort pipeline).
* `useDashboardData.ts`: the query/mutation hooks — `useCreateTransaction`
  (optimistic update with rollback) and `useUser` (conditional fetching).
* The QueryCache deduplication contract (provided at runtime by the external
  TanStack Query library, hence modelled from the specification).

Modelling conventions:

* JavaScript field values are embedded as `Value`: strings, numbers, booleans,
  dates and `null`.  `null` and `undefined` are collapsed into `Value.vnull`
  because every use in the source goes through loose `== null` / `!= null`
  checks or optional chaining, which treat the two alike.
* JS numbers are modelled as `Int` (the claims settled here do not depend on
  floating-point specifics); `Date` is modelled by its integer timestamp.
* `String.prototype.localeCompare` is modelled by code-point comparison
  collapsed to its sign; only the sign is used by the sort.
* JS `ToNumber` on strings is approximated by integer parsing (`String.toInt?`
  with failure standing for `NaN`); none of the settled claims depends on
  numeric string coercion.
* `Array.prototype.sort` is stable (ES2019) and receives a user comparator;
  it is embedded as `List.insertionSort` over the relation
  "comparator result ≤ 0", a stable sorting algorithm.
-/

namespace DataDrivenUi

open List

/-- A JavaScript field value as it occurs in the table rows.  `vnull` stands
for both `null` and `undefined` (the source only distinguishes them through
loose equality `== null`, which identifies them). -/
inductive Value where
  | vstr (s : String)
  | vnum (n : Int)
  | vbool (b : Bool)
  | vdate (t : Int)
  | vnull
deriving DecidableEq, Repr

/-- A table row: a record mapping field names to values (`T extends object`
in `DataTable<T>`). -/
abbrev Row := List (String × Value)

/-- JS property access `row[field]`: an absent property reads as `undefined`,
which is collapsed into `Value.vnull`. -/
def getField (row : Row) (field : String) : Value :=
  (row.lookup field).getD .vnull

/-- The `ColumnDef<T>` interface from DataTable.tsx, restricted to the fields the
filter/sort pipeline reads (`header`, `cell`, `width`, `align` are
presentation only). -/
structure ColumnDef where
  id : String
  accessorKey : Option String := none
  sortable : Bool := false
deriving DecidableEq, Repr

/-- The `'asc' | 'desc'` direction from the `SortState` interface. -/
inductive SortDirection where
  | asc
  | desc
deriving DecidableEq, Repr

/-- The `SortState` interface from DataTable.tsx: an optional active column
id plus a direction. -/
structure SortState where
  column : Option String
  direction : SortDirection
deriving DecidableEq, Repr

/-- The `handleSort` callback from DataTable.tsx: the tri-state click transition
none → asc → desc → none applied to the previous state. -/
def handleSort (columnId : String) (prev : SortState) : SortState :=
  if prev.column ≠ some columnId then
    { column := some columnId, direction := .asc }
  else if prev.direction = .asc then
    { column := some columnId, direction := .desc }
  else
    { column := none, direction := .asc }

/-- JS `String(value)` conversion.  (`String(new Date(t))` is a locale
dependent rendering; it is modelled by printing the timestamp — no settled
claim depends on the exact rendering of dates.) -/
def Value.jsString : Value → String
  | .vstr s => s
  | .vnum n => toString n
  | .vbool b => if b then "true" else "false"
  | .vdate t => toString t
  | .vnull => "null"

/-- JS `s.toLowerCase()`, modelled characterwise (`String.toLower` is the
same `Char.toLower` map, but phrased through byte positions that do not
reduce definitionally; the characterwise map is used so that concrete
instances evaluate inside proofs). -/
def jsToLowerCase (s : String) : String :=
  ⟨s.data.map Char.toLower⟩

/-- JS `haystack.includes(needle)`: substring test. -/
def strIncludes (haystack needle : String) : Bool :=
  decide (needle.toList <:+: haystack.toList)

/-- The per-field test inside the search filter of `processedData`:
`value != null && String(value).toLowerCase().includes(searchLower)`. -/
def fieldMatches (row : Row) (field : String) (searchLower : String) : Bool :=
  let value := getField row field
  value ≠ .vnull && strIncludes (jsToLowerCase value.jsString) searchLower

/-- JS truthiness of `col.accessorKey` (`keyof T | undefined`): falsy when
the key is absent and also when it is the empty string. -/
def accessorKeyTruthy (col : ColumnDef) : Bool :=
  match col.accessorKey with
  | none => false
  | some s => !s.isEmpty

/-- The list `searchFields || columns.filter(col => col.accessorKey).map(col => col.accessorKey)`
of `processedData`.  A supplied `searchFields` array is always truthy in JS
(even when empty), so `Option.getD` is the exact embedding of `||`; the
default list keeps only columns whose `accessorKey` is truthy — present and
non-empty. -/
def fieldsToSearch (searchFields : Option (List String))
    (columns : List ColumnDef) : List String :=
  searchFields.getD ((columns.filter accessorKeyTruthy).filterMap
    (fun col => col.accessorKey))

/-- The search-filter stage of `processedData`.  `if (searchTerm)` is JS
string truthiness: the filter only runs for a non-empty search term. -/
def filterStep (searchTerm : String) (searchFields : Option (List String))
    (columns : List ColumnDef) (rows : List Row) : List Row :=
  if searchTerm = "" then rows
  else
    let searchLower := jsToLowerCase searchTerm
    let fields := fieldsToSearch searchFields columns
    rows.filter (fun row => fields.any (fun field => fieldMatches row field searchLower))

/-- The JS test `typeof v === 'string'`. -/
def typeofIsString : Value → Bool
  | .vstr _ => true
  | _ => false

/-- The JS test `v instanceof Date`. -/
def isDateValue : Value → Bool
  | .vdate _ => true
  | _ => false

/-- JS `a.localeCompare(b)` collapsed to its sign (only the sign is consumed by
the sort). -/
def localeCompare (a b : String) : Int :=
  match compare a b with
  | .lt => -1
  | .eq => 0
  | .gt => 1

/-- JS `ToNumber` on a `Value`, with `none` standing for `NaN`.  Reached by
the comparator only for operands that are not both strings and not both
dates. -/
def jsToNumber : Value → Option Int
  | .vnum n => some n
  | .vbool b => some (if b then 1 else 0)
  | .vdate t => some t
  | .vnull => some 0
  | .vstr s => s.toInt?

/-- JS `a < b ? -1 : a > b ? 1 : 0` for operands that are not both strings
(the abstract relational comparison then goes through `ToNumber`; any `NaN`
makes both `<` and `>` false, yielding `0`). -/
def jsCompareLtGt (a b : Value) : Int :=
  match jsToNumber a, jsToNumber b with
  | some x, some y => if x < y then -1 else if x > y then 1 else 0
  | _, _ => 0

/-- The `comparison` computation of the comparator in `processedData`, for two
non-null values: both strings → `localeCompare`; both dates →
`getTime() - getTime()`; otherwise the generic relational comparison. -/
def compareValues (a b : Value) : Int :=
  match a, b with
  | .vstr s1, .vstr s2 => localeCompare s1 s2
  | .vdate t1, .vdate t2 => t1 - t2
  | _, _ => jsCompareLtGt a b

/-- The full comparator passed to `result.sort` in `processedData`, including
the null handling and the direction negation. -/
def compareRows (accessor : String) (direction : SortDirection) (a b : Row) : Int :=
  let aValue := getField a accessor
  let bValue := getField b accessor
  if aValue = .vnull ∧ bValue = .vnull then 0
  else if aValue = .vnull then (if direction = .asc then -1 else 1)
  else if bValue = .vnull then (if direction = .asc then 1 else -1)
  else
    let comparison := compareValues aValue bValue
    if direction = .asc then comparison else -comparison

/-- The relation "the comparator does not order `b` strictly before `a`",
i.e. `compareRows … a b ≤ 0`.  A stable sort by a consistent comparator is
exactly a stable sort by this relation. -/
def sortLE (accessor : String) (direction : SortDirection) (a b : Row) : Prop :=
  compareRows accessor direction a b ≤ 0

instance : ∀ accessor direction, DecidableRel (sortLE accessor direction) :=
  fun _ _ _ _ => by unfold sortLE; infer_instance

/-- The sort stage of `processedData`:
`if (sortState.column) { const column = columns.find(col => col.id === sortState.column);
const accessor = column?.accessorKey; if (accessor) { result.sort(...) } }`.
The two JS truthiness tests on strings (`sortState.column`, `accessor`)
are empty-string checks. -/
def sortStep (sortState : SortState) (columns : List ColumnDef)
    (rows : List Row) : List Row :=
  match sortState.column with
  | none => rows
  | some colId =>
    if colId = "" then rows
    else
      match (columns.find? (fun col => col.id = colId)).bind
          (fun col => col.accessorKey) with
      | none => rows
      | some accessor =>
        if accessor = "" then rows
        else rows.insertionSort (sortLE accessor sortState.direction)

/-- The `processedData` memo from DataTable.tsx: copy the input (`[...data]`), apply
the search filter, then sort the copy in place.  In this pure embedding the
copy-then-mutate is function composition. -/
def processedData (data : List Row) (searchTerm : String) (sortState : SortState)
    (columns : List ColumnDef) (searchFields : Option (List String)) : List Row :=
  sortStep sortState columns (filterStep searchTerm searchFields columns data)

/-! ## Checked variant of the pipeline

`processedDataE` re-traces `processedData` with the dynamically-typed
JavaScript operations of the comparator made explicitly fallible:
`localeCompare` demands a string receiver and argument, `getTime` demands a
`Date`; calling either on the wrong kind of value would be the comparator's
only way to fail.  The filter stage contains no fallible operation
(`String(value)` converts any value, and it is guarded by `value != null`
anyway), so only the sort is threaded through `Except`.  The theorem for the
no-exception claim shows this checked pipeline always returns `Except.ok`. -/

/-- JS `a.localeCompare(b)`, fallible: a `TypeError` unless both operands are
strings.  The comparator only reaches it under
`typeof aValue === 'string' && typeof bValue === 'string'`. -/
def jsLocaleCompareE : Value → Value → Except String Int
  | .vstr a, .vstr b => .ok (localeCompare a b)
  | _, _ => .error "TypeError: localeCompare called on a non-string"

/-- JS `v.getTime()`, fallible: a `TypeError` unless the receiver is a `Date`.
The comparator only reaches it under `instanceof Date` checks. -/
def jsGetTimeE : Value → Except String Int
  | .vdate t => .ok t
  | _ => .error "TypeError: getTime called on a non-Date"

/-- The comparator of `processedData` with its fallible operations checked:
same null handling and direction negation as `compareRows`, but the
`comparison` computation goes through `jsLocaleCompareE`/`jsGetTimeE` behind
the source's `typeof`/`instanceof` guards. -/
def compareRowsE (accessor : String) (direction : SortDirection) (a b : Row) :
    Except String Int := do
  let aValue := getField a accessor
  let bValue := getField b accessor
  if aValue = .vnull ∧ bValue = .vnull then pure 0
  else if aValue = .vnull then pure (if direction = .asc then -1 else 1)
  else if bValue = .vnull then pure (if direction = .asc then 1 else -1)
  else do
    let comparison ←
      if typeofIsString aValue && typeofIsString bValue then
        jsLocaleCompareE aValue bValue
      else if isDateValue aValue && isDateValue bValue then do
        let t1 ← jsGetTimeE aValue
        let t2 ← jsGetTimeE bValue
        pure (t1 - t2)
      else pure (jsCompareLtGt aValue bValue)
    pure (if direction = .asc then comparison else -comparison)

/-- The relation of comparator result at most zero, over the checked
comparator. -/
def leRowsE (accessor : String) (direction : SortDirection) (a b : Row) :
    Except String Bool := do
  let c ← compareRowsE accessor direction a b
  pure (decide (c ≤ 0))

/-- Variant of `List.orderedInsert` threaded through a fallible comparison. -/
def orderedInsertE (le : Row → Row → Except String Bool) (a : Row) :
    List Row → Except String (List Row)
  | [] => .ok [a]
  | b :: l => do
    if (← le a b) then pure (a :: b :: l)
    else
      let rest ← orderedInsertE le a l
      pure (b :: rest)

/-- Variant of `List.insertionSort` threaded through a fallible comparison. -/
def insertionSortE (le : Row → Row → Except String Bool) :
    List Row → Except String (List Row)
  | [] => .ok []
  | b :: l => do
    let rest ← insertionSortE le l
    orderedInsertE le b rest

/-- The sort stage with the checked comparator. -/
def sortStepE (sortState : SortState) (columns : List ColumnDef)
    (rows : List Row) : Except String (List Row) :=
  match sortState.column with
  | none => .ok rows
  | some colId =>
    if colId = "" then .ok rows
    else
      match (columns.find? (fun col => col.id = colId)).bind
          (fun col => col.accessorKey) with
      | none => .ok rows
      | some accessor =>
        if accessor = "" then .ok rows
        else insertionSortE (leRowsE accessor sortState.direction) rows

/-- The full pipeline with the checked comparator. -/
def processedDataE (data : List Row) (searchTerm : String) (sortState : SortState)
    (columns : List ColumnDef) (searchFields : Option (List String)) :
    Except String (List Row) :=
  sortStepE sortState columns (filterStep searchTerm searchFields columns data)

/-! ## Spec-side predicates for the sort-order claims -/

/-- A rank that is monotone along the comparator's treatment of null values:
ascending it ranks null below non-null (the code's comparator returns `-1`
for a null left operand when ascending), descending the other way around.
`Pairwise` of "rank is monotone" over the output states exactly where the
null rows sit. -/
def nullRank (direction : SortDirection) (accessor : String) (r : Row) : Nat :=
  match direction with
  | .asc => if getField r accessor = .vnull then 0 else 1
  | .desc => if getField r accessor = .vnull then 1 else 0

/-- The claim's "nulls last" property as a decidable check: once a
null-valued row appears, every later row is also null-valued. -/
def nullsLastCheck (accessor : String) (l : List Row) : Bool :=
  (l.dropWhile (fun r => !decide (getField r accessor = Value.vnull))).all
    (fun r => decide (getField r accessor = Value.vnull))

/-! ## Concrete fixtures used by counterexamples and witnesses -/

/-- A row whose `x` field is null. -/
def rowNullX : Row := [("x", .vnull)]

/-- A row with `x = 1`. -/
def rowOneX : Row := [("x", .vnum 1)]

/-- A single sortable column over the `x` field. -/
def colsX : List ColumnDef := [{ id := "x", accessorKey := some "x", sortable := true }]

/-- Two rows tying on `x` and distinguished by `k` (for the stability
witness). -/
def rowTieA : Row := [("x", .vnum 1), ("k", .vnum 1)]

/-- Second row of the tying pair. -/
def rowTieB : Row := [("x", .vnum 1), ("k", .vnum 2)]

/-- The spec's filter example row `{name: "Jackson Lee"}`. -/
def rowJackson : Row := [("name", .vstr "Jackson Lee")]

/-- The spec's filter example row `{name: "Olivia Martin"}`. -/
def rowOlivia : Row := [("name", .vstr "Olivia Martin")]

/-- A single sortable column over the `name` field. -/
def colsName : List ColumnDef :=
  [{ id := "name", accessorKey := some "name", sortable := true }]

/-! ## Query hooks (`useDashboardData.ts`)

The hooks configure the external TanStack Query runtime.  The callback bodies
below (`mutationFn` input shape, `onMutate`, `onError`) are translated from
`useDashboardData.ts`; the orchestration that invokes them (run `onMutate`
first, pass its returned context to `onError` when `mutationFn` rejects,
gate a query on `enabled`) is the library contract restated in the
specification (§4.1 `mutate`, `useUser`'s own comment "Query only runs when
this is true") and is modelled from the spec. -/

/-- A transaction record, restricted to the fields the cache logic
manipulates: the generated `id` and an opaque payload standing for the
remaining fields. -/
structure Transaction where
  id : String
  payload : Int
deriving DecidableEq, Repr

/-- The `onMutate` callback of `useCreateTransaction`: snapshot
`previousTransactions = getQueryData(transactions)`, then optimistically
prepend the new transaction
(`old ? [optimisticTransaction, ...old] : [optimisticTransaction]` — only
`undefined` takes the second branch, a JS array is always truthy).
Returns the new cache contents and the rollback context. -/
def onMutateCreateTransaction (cacheData : Option (List Transaction))
    (optimistic : Transaction) :
    Option (List Transaction) × Option (List Transaction) :=
  let previousTransactions := cacheData
  let newData :=
    match cacheData with
    | some old => some (optimistic :: old)
    | none => some [optimistic]
  (newData, previousTransactions)

/-- The `onError` callback of `useCreateTransaction`:
`if (context?.previousTransactions) setQueryData(transactions, context.previousTransactions)`.
A snapshotted array (even an empty one) is truthy; an `undefined` snapshot is
falsy and the rollback write is skipped. -/
def onErrorCreateTransaction (cacheData : Option (List Transaction))
    (contextPrevious : Option (List Transaction)) : Option (List Transaction) :=
  match contextPrevious with
  | some prev => some prev
  | none => cacheData

/-- Modelled from the spec: the mutation protocol of §4.1 on the failure
path — `onBeforeApply`/`onMutate` runs synchronously first, `mutationFn`
rejects, then `onError` receives the context returned by `onMutate`.
Composed with the two callbacks translated from `useCreateTransaction`,
this gives the cache contents observed after a failed mutation settles
(before any background refetch triggered by `onSettled`'s invalidation). -/
def createTransactionFailure (cacheData : Option (List Transaction))
    (optimistic : Transaction) : Option (List Transaction) :=
  let step := onMutateCreateTransaction cacheData optimistic
  onErrorCreateTransaction step.1 step.2

/-- A user record, restricted to the fields `useUser`'s query function
reads. -/
structure User where
  id : String
  name : String
deriving DecidableEq, Repr

/-- The `queryFn` of `useUser`: `users.find(u => u.id === id)`, throwing
`'User not found'` when the lookup fails.  `id` is `string | undefined`;
strict equality with `undefined` is always false. -/
def useUserQueryFn (users : List User) (id : Option String) :
    Except String User :=
  match users.find? (fun u => some u.id = id) with
  | some u => Except.ok u
  | none => Except.error "User not found"

/-- The `enabled` option of `useUser`: `!!id` — false for `undefined` and for
the empty string. -/
def useUserEnabled (id : Option String) : Bool :=
  match id with
  | none => false
  | some s => !s.isEmpty

/-- Modelled from the spec: a query whose `enabled` option is false never
runs its query function ("Query only runs when this is true").  The result
pairs the observed outcome (none while disabled) with the number of times
the query function was invoked. -/
def runQuery (enabled : Bool) (queryFn : Except String User) :
    Option (Except String User) × Nat :=
  if enabled then (some queryFn, 1) else (none, 0)

/-- The observable behaviour of `useUser users id`: outcome and fetch
count. -/
def useUserRun (users : List User) (id : Option String) :
    Option (Except String User) × Nat :=
  runQuery (useUserEnabled id) (useUserQueryFn users id)

/-! ## QueryCache deduplication (modelled from the spec)

The cache itself is the external TanStack Query runtime; §2, §4.1 and §8 of
the specification state its contract: at most one `InFlightRequest` per key;
concurrent `get` calls for the same key attach to it; on settlement every
attached caller receives the same value.  The model below is a
single-key event system: `dedupGet` is one `get` arrival while the fetch has
not settled, `dedupResolve` is the settlement of the in-flight fetch. -/

/-- Modelled from the spec: the per-key cache state — cached value (if any),
whether a fetch is in flight, how many callers await it, and how many times
`fetchFn` has been triggered. -/
structure DedupState where
  cachedData : Option Int
  inFlight : Bool
  waiters : Nat
  fetchCount : Nat
deriving DecidableEq, Repr

/-- The state before any request: no entry, nothing in flight. -/
def dedupInit : DedupState :=
  { cachedData := none, inFlight := false, waiters := 0, fetchCount := 0 }

/-- Modelled from the spec: one `get(k, fetchFn, …)` arriving.  A fresh
entry is served from cache with no fetch; otherwise the caller attaches to
an existing in-flight request, or — when none exists — triggers `fetchFn`
exactly once and becomes its first waiter. -/
def dedupGet (s : DedupState) : DedupState :=
  if s.cachedData.isSome then s
  else if s.inFlight then { s with waiters := s.waiters + 1 }
  else { s with inFlight := true, waiters := s.waiters + 1,
                fetchCount := s.fetchCount + 1 }

/-- Modelled from the spec: settlement of the in-flight fetch with value
`v` — the entry is filled and every waiter receives `v`.  Returns the new
state and the list of values delivered to the waiting callers. -/
def dedupResolve (v : Int) (s : DedupState) : DedupState × List Int :=
  if s.inFlight then
    ({ cachedData := some v, inFlight := false, waiters := 0,
       fetchCount := s.fetchCount }, List.replicate s.waiters v)
  else (s, [])

/-! ## Helper lemmas -/

/-- An empty search term disables the filter stage. -/
theorem filterStep_empty (searchFields : Option (List String))
    (columns : List ColumnDef) (rows : List Row) :
    filterStep "" searchFields columns rows = rows := by
  simp [filterStep]

/-- The filter stage returns a sublist of its input. -/
theorem filterStep_sublist (searchTerm : String) (searchFields : Option (List String))
    (columns : List ColumnDef) (rows : List Row) :
    filterStep searchTerm searchFields columns rows <+ rows := by
  unfold filterStep
  split
  · exact List.Sublist.refl _
  · exact List.filter_sublist _

/-- The sort stage permutes its input. -/
theorem sortStep_perm (sortState : SortState) (columns : List ColumnDef)
    (rows : List Row) : sortStep sortState columns rows ~ rows := by
  unfold sortStep
  split
  · exact List.Perm.refl _
  · split
    · exact List.Perm.refl _
    · split
      · exact List.Perm.refl _
      · split
        · exact List.Perm.refl _
        · exact List.perm_insertionSort _ _

/-! ## C1: placement of null values under sorting

The source comparator returns `-1` for a null left operand when ascending
and `1` when descending (`aValue == null ? (direction === 'asc' ? -1 : 1)`),
i.e. it treats null as smaller than every non-null value and then applies
the direction.  Null rows therefore sort first ascending and last
descending — the claim's direction-invariant "nulls last" fails for
ascending. -/

/-- The comparator orders along `nullRank`: whenever the left row sorts no
later than the right one, its null rank is no larger, and conversely. -/
theorem sortLE_nullRank (accessor : String) (direction : SortDirection) (a b : Row) :
    (sortLE accessor direction a b →
      nullRank direction accessor a ≤ nullRank direction accessor b) ∧
    (¬ sortLE accessor direction a b →
      nullRank direction accessor b ≤ nullRank direction accessor a) := by
  unfold sortLE compareRows nullRank
  by_cases hA : getField a accessor = .vnull <;>
    by_cases hB : getField b accessor = .vnull <;>
      cases direction <;> simp [hA, hB]

/-- Lemma: `orderedInsert` preserves monotonicity of any rank the relation respects
(no transitivity of the relation itself is required). -/
theorem pairwise_rank_orderedInsert {α : Type} (rk : α → Nat) (r : α → α → Prop)
    [DecidableRel r] (h1 : ∀ x y, r x y → rk x ≤ rk y)
    (h2 : ∀ x y, ¬ r x y → rk y ≤ rk x) (a : α) :
    ∀ (l : List α), l.Pairwise (fun x y => rk x ≤ rk y) →
      (List.orderedInsert r a l).Pairwise (fun x y => rk x ≤ rk y) := by
  intro l
  induction l with
  | nil => intro _; simp
  | cons b t ih =>
    intro hl
    rw [List.orderedInsert]
    rcases List.pairwise_cons.mp hl with ⟨hb, ht⟩
    by_cases hr : r a b
    · rw [if_pos hr]
      refine List.pairwise_cons.mpr ⟨?_, hl⟩
      intro x hx
      rcases List.mem_cons.mp hx with rfl | hx
      · exact h1 a x hr
      · exact Nat.le_trans (h1 a b hr) (hb x hx)
    · rw [if_neg hr]
      refine List.pairwise_cons.mpr ⟨?_, ih ht⟩
      intro x hx
      rcases (List.mem_orderedInsert r).mp hx with rfl | hx
      · exact h2 x b hr
      · exact hb x hx

/-- The sorted output is monotone in any rank the relation respects. -/
theorem pairwise_rank_insertionSort {α : Type} (rk : α → Nat) (r : α → α → Prop)
    [DecidableRel r] (h1 : ∀ x y, r x y → rk x ≤ rk y)
    (h2 : ∀ x y, ¬ r x y → rk y ≤ rk x) :
    ∀ (l : List α), (List.insertionSort r l).Pairwise (fun x y => rk x ≤ rk y)
  | [] => by simp
  | b :: t => pairwise_rank_orderedInsert rk r h1 h2 b _
      (pairwise_rank_insertionSort rk r h1 h2 t)

/-- C1 (amended): when the active column resolves to an accessor, rows with
a null or absent value at the sorted field are placed before all non-null
rows when the direction is ascending, and after all non-null rows when it
is descending (`nullRank` ranks null first for `asc` and last for `desc`;
pairwise monotonicity of the rank over the output is exactly that
placement). -/
theorem c1_null_position (data : List Row) (searchTerm : String)
    (columns : List ColumnDef) (searchFields : Option (List String))
    (colId accessor : String) (direction : SortDirection)
    (hcol : (columns.find? (fun col => col.id = colId)).bind
      (fun col => col.accessorKey) = some accessor)
    (hcolId : colId ≠ "") (hacc : accessor ≠ "") :
    (processedData data searchTerm { column := some colId, direction := direction }
        columns searchFields).Pairwise
      (fun x y => nullRank direction accessor x ≤ nullRank direction accessor y) := by
  unfold processedData sortStep
  simp only [hcol, if_neg hcolId, if_neg hacc]
  exact pairwise_rank_insertionSort _ _
    (fun x y => (sortLE_nullRank accessor direction x y).1)
    (fun x y => (sortLE_nullRank accessor direction x y).2) _

/-- Witness for C1 (amended) on a two-row table sorted descending. -/
theorem c1_null_position_witness :
    (processedData [rowNullX, rowOneX] ""
        { column := some "x", direction := .desc } colsX none).Pairwise
      (fun x y => nullRank .desc "x" x ≤ nullRank .desc "x" y) :=
  c1_null_position [rowNullX, rowOneX] "" colsX none "x" "x" .desc
    (by decide) (by decide) (by decide)

/-- C1 counterexample: sorting `[{x:null}, {x:1}]` ascending leaves the null
row first, i.e. before a non-null row — the claimed direction-invariant
"nulls last" is false for the ascending direction. -/
theorem c1_counterexample :
    nullsLastCheck "x" (processedData [rowNullX, rowOneX] ""
      { column := some "x", direction := .asc } colsX none) = false := by decide

/-! ## C4: search filter characterization -/

/-- C4: with an empty search text the filter keeps every row; with a
non-empty one it keeps exactly the rows having at least one searched field
(the explicit `searchFields` list, else every column with an `accessorKey`)
whose non-null value, lower-cased, contains the lower-cased search text as a
substring — a null or absent value never matches on that field. -/
theorem c4_filter (rows : List Row) (columns : List ColumnDef)
    (searchFields : Option (List String)) (searchTerm : String) (r : Row) :
    (searchTerm = "" → filterStep searchTerm searchFields columns rows = rows) ∧
    (r ∈ filterStep searchTerm searchFields columns rows ↔
      r ∈ rows ∧ (searchTerm ≠ "" →
        ∃ f ∈ fieldsToSearch searchFields columns,
          getField r f ≠ .vnull ∧
          (jsToLowerCase searchTerm).toList <:+:
            (jsToLowerCase (getField r f).jsString).toList)) := by
  constructor
  · intro ht; simp [filterStep, ht]
  · by_cases ht : searchTerm = ""
    · simp [filterStep, ht]
    · simp [filterStep, ht, List.mem_filter, fieldMatches, strIncludes,
        List.any_eq_true, decide_eq_true_eq]

/-- Witness for C4 on the specification's own example: searching `"lee"`
over `[{name:"Jackson Lee"}, {name:"Olivia Martin"}]` keeps exactly the
Jackson Lee row, and the empty search keeps both. -/
theorem c4_filter_witness :
    filterStep "" none colsName [rowJackson, rowOlivia] = [rowJackson, rowOlivia] ∧
    rowJackson ∈ filterStep "lee" none colsName [rowJackson, rowOlivia] ∧
    filterStep "lee" none colsName [rowJackson, rowOlivia] = [rowJackson] :=
  ⟨(c4_filter [rowJackson, rowOlivia] colsName none "" rowJackson).1 rfl,
   (c4_filter [rowJackson, rowOlivia] colsName none "lee" rowJackson).2.mpr
     ⟨by decide, fun _ => ⟨"name", by decide, by decide, by decide⟩⟩,
   by decide⟩

/-! ## C3: tri-state sort cycle -/

/-- C3: clicking an inactive column activates it ascending; clicking the
active ascending column flips to descending; clicking the active descending
column clears the sort; hence three clicks from a state not sorted on `c`
end cleared and a fourth click reproduces the first click's state. -/
theorem c3_sort_cycle (s : SortState) (c : String) (h : s.column ≠ some c) :
    handleSort c s = { column := some c, direction := .asc } ∧
    handleSort c { column := some c, direction := .asc } =
      { column := some c, direction := .desc } ∧
    handleSort c { column := some c, direction := .desc } =
      { column := none, direction := .asc } ∧
    handleSort c (handleSort c (handleSort c s)) =
      { column := none, direction := .asc } ∧
    handleSort c (handleSort c (handleSort c (handleSort c s))) =
      handleSort c s := by
  have h1 : handleSort c s = { column := some c, direction := .asc } := by
    simp [handleSort, h]
  refine ⟨h1, ?_, ?_, ?_, ?_⟩
  · simp [handleSort]
  · simp [handleSort]
  · rw [h1]; simp [handleSort]
  · rw [h1]; simp [handleSort]

/-- Witness for C3 at the cleared initial state and column `"name"`. -/
theorem c3_sort_cycle_witness :
    (SortState.mk none .asc).column ≠ some "name" ∧
    handleSort "name" { column := none, direction := .asc } =
      { column := some "name", direction := .asc } :=
  ⟨by decide, (c3_sort_cycle { column := none, direction := .asc } "name" (by decide)).1⟩

/-! ## C6: output row count bounded by input row count -/

/-- C6: the pipeline never produces more rows than it was given. -/
theorem c6_row_count (data : List Row) (searchTerm : String) (sortState : SortState)
    (columns : List ColumnDef) (searchFields : Option (List String)) :
    (processedData data searchTerm sortState columns searchFields).length ≤
      data.length := by
  unfold processedData
  calc (sortStep sortState columns (filterStep searchTerm searchFields columns data)).length
      = (filterStep searchTerm searchFields columns data).length :=
        (sortStep_perm _ _ _).length_eq
    _ ≤ data.length := (filterStep_sublist _ _ _ _).length_le

/-! ## C8: the pipeline does not mutate its inputs -/

/-- C8: the output is a permutation of a sublist of the input — every output
row is literally one of the supplied rows, with multiplicities respected; no
row is rewritten and no new row is fabricated.  (In the source, `[...data]`
copies the array before the in-place sort, so the caller's array is not
touched; the pure embedding renders that copy-then-mutate as composition.) -/
theorem c8_no_mutation (data : List Row) (searchTerm : String) (sortState : SortState)
    (columns : List ColumnDef) (searchFields : Option (List String)) :
    processedData data searchTerm sortState columns searchFields <+~ data :=
  ⟨filterStep searchTerm searchFields columns data,
    (sortStep_perm _ _ _).symm, filterStep_sublist _ _ _ _⟩

/-! ## C2: optimistic update rollback on mutation failure -/

/-- C2 counterexample: starting with nothing cached (`getQueryData`
returns `undefined`), a failed `useCreateTransaction` mutation leaves the
optimistic entry in the cache instead of restoring the pre-update state. -/
theorem c2_rollback_counterexample :
    createTransactionFailure none { id := "temp-1", payload := 100 } =
      some [{ id := "temp-1", payload := 100 }] ∧
    createTransactionFailure none { id := "temp-1", payload := 100 } ≠
      (none : Option (List Transaction)) :=
  ⟨rfl, by decide⟩

/-- C2 (amended): whenever the transactions cache held a value before the
mutation, a failing `mutationFn` restores exactly that snapshot; when
nothing was cached, the rollback is skipped (the `context?.previousTransactions`
guard is falsy) and the optimistic entry remains. -/
theorem c2_rollback (prev : List Transaction) (opt : Transaction) :
    createTransactionFailure (some prev) opt = some prev ∧
    createTransactionFailure none opt = some [opt] :=
  ⟨rfl, rfl⟩

/-! ## C5: sort stability, and C7: absence of an exception path -/

/-- With an empty search term the pipeline is just the sort stage. -/
theorem processedData_empty_search (data : List Row) (sortState : SortState)
    (columns : List ColumnDef) (searchFields : Option (List String)) :
    processedData data "" sortState columns searchFields =
      sortStep sortState columns data :=
  congrArg (sortStep sortState columns) (filterStep_empty searchFields columns data)

/-- Rows that tie under the ascending comparator also tie under the
descending one (ties only arise between non-null values, where descending
merely negates the comparison). -/
theorem compareRows_desc_of_asc_eq_zero (accessor : String) (a b : Row)
    (h : compareRows accessor .asc a b = 0) : compareRows accessor .desc a b = 0 := by
  unfold compareRows at h ⊢
  by_cases hA : getField a accessor = .vnull <;>
    by_cases hB : getField b accessor = .vnull <;>
      simp [hA, hB] at h ⊢ <;> omega

/-- C5: sorting is stable — a pair of rows that tie on the sorted field
keeps its original relative order in the output, for the ascending and the
descending direction alike, and clearing the sort returns the data
unchanged.  Each pipeline run recomputes from the original `data` input, so
the property holds at every step of an asc/desc/clear click sequence. -/
theorem c5_stable (data : List Row) (columns : List ColumnDef)
    (searchFields : Option (List String)) (colId accessor : String) (a b : Row)
    (hcol : (columns.find? (fun col => col.id = colId)).bind
      (fun col => col.accessorKey) = some accessor)
    (hcolId : colId ≠ "") (hacc : accessor ≠ "")
    (htie : compareRows accessor .asc a b = 0)
    (hsub : [a, b] <+ data) :
    [a, b] <+ processedData data "" { column := some colId, direction := .asc }
        columns searchFields ∧
    [a, b] <+ processedData data "" { column := some colId, direction := .desc }
        columns searchFields ∧
    processedData data "" { column := none, direction := .asc }
        columns searchFields = data := by
  rw [processedData_empty_search, processedData_empty_search, processedData_empty_search]
  unfold sortStep
  simp only [hcol, if_neg hcolId, if_neg hacc]
  refine ⟨?_, ?_, trivial⟩
  · exact List.pair_sublist_insertionSort htie.le hsub
  · exact List.pair_sublist_insertionSort
      (compareRows_desc_of_asc_eq_zero accessor a b htie).le hsub

/-- Witness for C5 on two rows tying on `x`. -/
theorem c5_stable_witness :
    compareRows "x" .asc rowTieA rowTieB = 0 ∧
    [rowTieA, rowTieB] <+ processedData [rowTieA, rowTieB] ""
      { column := some "x", direction := .asc } colsX none ∧
    [rowTieA, rowTieB] <+ processedData [rowTieA, rowTieB] ""
      { column := some "x", direction := .desc } colsX none :=
  ⟨by decide,
   (c5_stable [rowTieA, rowTieB] colsX none "x" "x" rowTieA rowTieB
     (by decide) (by decide) (by decide) (by decide) (by decide)).1,
   (c5_stable [rowTieA, rowTieB] colsX none "x" "x" rowTieA rowTieB
     (by decide) (by decide) (by decide) (by decide) (by decide)).2.1⟩

/-- The checked comparator never raises: the `typeof`/`instanceof` guards
match the partial operations exactly, so it agrees with the pure
comparator on every pair of rows. -/
theorem compareRowsE_ok (accessor : String) (direction : SortDirection) (a b : Row) :
    compareRowsE accessor direction a b = .ok (compareRows accessor direction a b) := by
  cases hA : getField a accessor <;> cases hB : getField b accessor <;>
    simp [compareRowsE, compareRows, hA, hB, typeofIsString, isDateValue,
      jsLocaleCompareE, jsGetTimeE, compareValues] <;> rfl

/-- The checked at-most-zero test never raises. -/
theorem leRowsE_ok (accessor : String) (direction : SortDirection) (a b : Row) :
    leRowsE accessor direction a b = .ok (decide (sortLE accessor direction a b)) := by
  unfold leRowsE sortLE
  rw [compareRowsE_ok]
  rfl

/-- Insertion through a non-raising comparison never raises. -/
theorem orderedInsertE_ok (r : Row → Row → Prop) [DecidableRel r]
    (le : Row → Row → Except String Bool)
    (hle : ∀ x y, le x y = .ok (decide (r x y))) (a : Row) :
    ∀ (l : List Row), orderedInsertE le a l = .ok (List.orderedInsert r a l)
  | [] => rfl
  | b :: t => by
    rw [orderedInsertE, List.orderedInsert, hle]
    by_cases hr : r a b
    · rw [decide_eq_true hr, if_pos hr]
      rfl
    · rw [decide_eq_false hr, if_neg hr, orderedInsertE_ok r le hle a t]
      rfl

/-- Sorting through a non-raising comparison never raises. -/
theorem insertionSortE_ok (r : Row → Row → Prop) [DecidableRel r]
    (le : Row → Row → Except String Bool)
    (hle : ∀ x y, le x y = .ok (decide (r x y))) :
    ∀ (l : List Row), insertionSortE le l = .ok (List.insertionSort r l)
  | [] => rfl
  | b :: t => by
    rw [insertionSortE, List.insertionSort, insertionSortE_ok r le hle t]
    exact orderedInsertE_ok r le hle b _

/-- The checked sort stage always succeeds and agrees with the pure one. -/
theorem sortStepE_ok (sortState : SortState) (columns : List ColumnDef)
    (rows : List Row) :
    sortStepE sortState columns rows = .ok (sortStep sortState columns rows) := by
  unfold sortStepE sortStep
  split
  · rfl
  · split
    · rfl
    · split
      · rfl
      · split
        · rfl
        · exact insertionSortE_ok _ _ (leRowsE_ok _ _) _

/-- C7: the filter/sort pipeline is total and takes no exception path — for
every row sequence (null, absent or mixed-type field values included), every
search text and every sort state, the checked pipeline (in which each
dynamically-typed comparator operation is explicitly fallible) returns
`Except.ok` of the pure pipeline's output. -/
theorem c7_no_exception (data : List Row) (searchTerm : String) (sortState : SortState)
    (columns : List ColumnDef) (searchFields : Option (List String)) :
    processedDataE data searchTerm sortState columns searchFields =
      .ok (processedData data searchTerm sortState columns searchFields) :=
  sortStepE_ok sortState columns _

/-! ## C9: fetch deduplication -/

/-- Lemma: `N ≥ 1` concurrent `get`s from the empty state leave one in-flight
request with `N` waiters and a single `fetchFn` trigger. -/
theorem dedupGet_iterate : ∀ (N : Nat), 1 ≤ N →
    dedupGet^[N] dedupInit =
      { cachedData := none, inFlight := true, waiters := N, fetchCount := 1 }
  | 0, h => absurd h (by decide)
  | 1, _ => rfl
  | (N + 2), _ => by
    rw [Function.iterate_succ_apply', dedupGet_iterate (N + 1) (by omega)]
    rfl

/-- C9: issuing `N` concurrent `get` calls for a key with no fresh entry
triggers the fetch exactly once, and on settlement all `N` callers receive
the same resolved value. -/
theorem c9_dedup (N : Nat) (v : Int) (h : 1 ≤ N) :
    (dedupGet^[N] dedupInit).fetchCount = 1 ∧
    (dedupResolve v (dedupGet^[N] dedupInit)).2 = List.replicate N v ∧
    ∀ x ∈ (dedupResolve v (dedupGet^[N] dedupInit)).2, x = v := by
  rw [dedupGet_iterate N h]
  refine ⟨rfl, rfl, ?_⟩
  intro x hx
  exact List.eq_of_mem_replicate (by simpa [dedupResolve] using hx)

/-- Witness for C9 with three concurrent callers and resolved value 7. -/
theorem c9_dedup_witness :
    1 ≤ 3 ∧ ((dedupGet^[3] dedupInit).fetchCount = 1 ∧
      (dedupResolve 7 (dedupGet^[3] dedupInit)).2 = List.replicate 3 7 ∧
      ∀ x ∈ (dedupResolve 7 (dedupGet^[3] dedupInit)).2, x = 7) :=
  ⟨by decide, c9_dedup 3 7 (by decide)⟩

/-! ## C10: disabled single-user query never fetches -/

/-- C10: with an undefined id the `useUser` query is disabled
(`enabled: !!id` is false), so its fetch function is never invoked —
zero fetches, no observable result and in particular no
`'User not found'` error. -/
theorem c10_disabled_no_fetch (users : List User) :
    useUserRun users none = (none, 0) ∧ useUserEnabled none = false :=
  ⟨rfl, rfl⟩

end DataDrivenUi
